import Mathlib

/-
Verification of the failure-streak detection tool
(`src/failurestreaks/find_streaks_cli.py`) against its natural-language
specification.  The Python program is shallowly embedded below: pydantic
models become structures, the MongoDB collection becomes a list of streak
records with find-first / update-first semantics, the version dictionary
becomes an association list, and the `cached_versions[k]` dictionary access
(which raises `KeyError` on a missing key) is modelled with `Except`, the
error value carrying the missing key.
-/

set_option maxRecDepth 4000

namespace FailureStreaks

/-- The `Commit` pydantic model: a version id plus the integer commit order. -/
structure Commit where
  version_id : String
  order : Nat
deriving DecidableEq, Repr

/-- The `FailureStreak` pydantic model persisted in MongoDB. -/
structure FailureStreak where
  project : String
  build_variant : String
  task : String
  test : String
  beginning_commit : Option Commit
  ending_commit : Option Commit
  failing_versions : List Commit
deriving DecidableEq, Repr

/-- The `FailureStreak.create_new` classmethod (a plain constructor). -/
def FailureStreak.create_new (project task test build_variant : String)
    (failing_versions : List Commit)
    (beginning_commit : Option Commit := none)
    (ending_commit : Option Commit := none) : FailureStreak :=
  { project := project
    build_variant := build_variant
    task := task
    test := test
    ending_commit := ending_commit
    beginning_commit := beginning_commit
    failing_versions := failing_versions }

/-- A test result (`Tst` in the evergreen client), carrying its test file id. -/
structure Tst where
  test_file : String
deriving DecidableEq, Repr

/-- An evergreen task run.  `get_tests(status="fail")` / `get_tests(status="pass")`
are modelled by the two test lists; `is_timeout()` by a boolean field. -/
structure Task where
  display_name : String
  build_variant : String
  status : String
  is_timeout : Bool
  order : Nat
  version_id : String
  fail_tests : List Tst
  pass_tests : List Tst
deriving DecidableEq, Repr

/-- The task's `get_tests(status=...)` accessor. -/
def Task.get_tests (t : Task) (status : String) : List Tst :=
  if status = "fail" then t.fail_tests
  else if status = "pass" then t.pass_tests
  else []

/-- An evergreen build: the display name (required builds start with `!`) and
its tasks, tagged with the build variant name used by `build_by_variant`. -/
structure Build where
  display_name : String
  build_variant : String
  tasks : List Task
deriving DecidableEq, Repr

/-- An evergreen version: its id, commit order, project, and builds. -/
structure Version where
  version_id : String
  order : Nat
  project : String
  builds : List Build
deriving DecidableEq, Repr

/-- The evergreen client's `version.build_by_variant(bv).get_tasks()` lookup,
modelled as the tasks of the builds whose variant name matches.  A version
with no build of that variant yields the empty list, matching the spec's
contract that absence is an expected "absent" result, never an error. -/
def Version.build_by_variant_tasks (v : Version) (bv : String) : List Task :=
  (v.builds.filter (fun b => b.build_variant == bv)).flatMap (fun b => b.tasks)

/-- Module constant `PROJECT`. -/
def PROJECT : String := "mongodb-mongo-master"

/-- Module constant `TASK_FAILURE_STATUS`. -/
def TASK_FAILURE_STATUS : String := "failed"

/-- `_is_build_variant_required`: a build is required iff its display name
starts with the sentinel `!`, i.e. its first character is `!`. -/
def _is_build_variant_required (name : String) : Bool :=
  name.data.head? == some ('!' : Char)

/-- `_task_failed`: task-level failure check against `TASK_FAILURE_STATUS`. -/
def _task_failed (t : Task) : Bool :=
  t.status == TASK_FAILURE_STATUS

/-- `_get_task_from_version`: the tasks of the requested build variant are
filtered by display name; the result is returned only when exactly one task
matches, otherwise `None`. -/
def _get_task_from_version (task_name build_variant : String) (v : Version) :
    Option Task :=
  match (v.build_by_variant_tasks build_variant).filter
      (fun tk => tk.display_name == task_name) with
  | [tk] => some tk
  | _ => none

/-- `_find_test`: returns the test result whose `test_file` equals the queried
name, but only when exactly one entry matches; otherwise `None`. -/
def _find_test (test_name : String) (tests : List Tst) : Option Tst :=
  match tests.filter (fun te => te.test_file == test_name) with
  | [te] => some te
  | _ => none

/-- The MongoDB collection of streak documents, in insertion order. -/
abbrev Store := List FailureStreak

/-- The match predicate used by both `_can_add_to_existing_streak` and
`_add_test_to_existing_streak`: identity fields equal and some entry of
`failing_versions` has the given order. -/
def streak_query (project_id build_variant task test : String) (ord : Nat)
    (r : FailureStreak) : Bool :=
  r.project == project_id && r.build_variant == build_variant &&
    r.task == task && r.test == test &&
    r.failing_versions.any (fun c => c.order == ord)

/-- `_can_add_to_existing_streak`: `find_one` on the streak query at order
`task.order + 1`; the streak can be extended iff a document matches. -/
def _can_add_to_existing_streak (collection : Store) (failing_test : Tst)
    (t : Task) (project_id : String) : Bool :=
  (collection.find? (streak_query project_id t.build_variant t.display_name
    failing_test.test_file (t.order + 1))).isSome

/-- Applies `f` to the first element satisfying `p`, like Mongo `update_one`. -/
def update_first {α : Type} (p : α → Bool) (f : α → α) : List α → List α
  | [] => []
  | x :: xs => if p x then f x :: xs else x :: update_first p f xs

/-- The per-document effect of `_add_test_to_existing_streak`'s pipeline
update: `$concatArrays` appends the new commit to `failing_versions`, and
`beginning_commit` is `$set` only when one was passed in. -/
def appended_record (r : FailureStreak) (new_commit : Commit)
    (beginning_commit : Option Commit) : FailureStreak :=
  { r with
    failing_versions := r.failing_versions ++ [new_commit]
    beginning_commit :=
      match beginning_commit with
      | some b => some b
      | none => r.beginning_commit }

/-- `_add_test_to_existing_streak`: `update_one` with the streak query at order
`task.order + 1`, appending the commit of the current task and optionally
setting `beginning_commit`. -/
def _add_test_to_existing_streak (collection : Store) (failing_test : Tst)
    (t : Task) (project_id : String)
    (beginning_commit : Option Commit := none) : Store :=
  update_first
    (streak_query project_id t.build_variant t.display_name
      failing_test.test_file (t.order + 1))
    (fun r => appended_record r { version_id := t.version_id, order := t.order }
      beginning_commit)
    collection

/-- `_check_for_beginning_commit`: in the supplied earlier version, look up the
same task; if the queried test is found among its passing tests, return that
task's commit, otherwise `None`.  A missing version yields `None`. -/
def _check_for_beginning_commit (test_name : String) (t : Task)
    (version_to_check : Option Version) : Option Commit :=
  match version_to_check with
  | none => none
  | some v =>
    match _get_task_from_version t.display_name t.build_variant v with
    | none => none
    | some task_to_check =>
      match _find_test test_name (task_to_check.get_tests "pass") with
      | some _ =>
        some { version_id := task_to_check.version_id,
               order := task_to_check.order }
      | none => none

/-- `try_to_add_to_existing_streaks`: for each failing test, extend a matching
streak (resolving a beginning commit first) or report it as non-matching.
Returns the updated collection together with the non-matching test names. -/
def try_to_add_to_existing_streaks (collection : Store)
    (failing_tests : List Tst) (t : Task) (project_id : String)
    (version_before_current : Option Version) : Store × List String :=
  failing_tests.foldl
    (fun acc test =>
      if _can_add_to_existing_streak acc.1 test t project_id then
        let commit := _check_for_beginning_commit test.test_file t
          version_before_current
        (_add_test_to_existing_streak acc.1 test t project_id commit, acc.2)
      else
        (acc.1, acc.2 ++ [test.test_file]))
    (collection, [])

/-- The driver's `cached_versions` dictionary, keyed by commit order.  Later
insertions are consed to the front and shadow earlier ones, like dict update. -/
abbrev Cache := List (Nat × Version)

/-- `cached_versions.get(k)`: the non-raising dictionary lookup. -/
def cache_get (c : Cache) (k : Nat) : Option Version :=
  (c.find? (fun p => p.1 == k)).map (fun p => p.2)

/-- The `TestEndingCommitGrouping` named tuple. -/
structure TestEndingCommitGrouping where
  test : String
  ending_commit : Option Commit
  beginning_commit : Option Commit
deriving DecidableEq, Repr

/-- The ending-commit resolution block inside `check_for_and_find_new_streaks`:
if the version at `task.order + 3` is cached, the same task exists there, and
the test is found among its passing tests, the stored ending commit is built
from the CURRENT task's order and version id (this is what the source does). -/
def resolve_ending_commit (t : Task) (cached_versions : Cache)
    (test : String) : Option Commit :=
  match cache_get cached_versions (t.order + 3) with
  | some v3 =>
    match _get_task_from_version t.display_name t.build_variant v3 with
    | some task_three_ahead =>
      match _find_test test (task_three_ahead.get_tests "pass") with
      | some _ => some { version_id := t.version_id, order := t.order }
      | none => none
    | none => none
  | none => none

/-- `check_for_and_find_new_streaks`: the streak detector.  The source indexes
`cached_versions[task.order + 1]` and `cached_versions[task.order + 2]`
directly, raising `KeyError` when the key is missing; that is modelled by
`Except`, the error carrying the missing key.  `.ok none` is the source's
`return None` ("no decision"), `.ok (some streaks)` the minted streaks. -/
def check_for_and_find_new_streaks (t : Task) (cached_versions : Cache)
    (failing_tests : List String) (project_id : String)
    (version_before_current : Option Version) :
    Except Nat (Option (List FailureStreak)) :=
  match cache_get cached_versions (t.order + 1) with
  | none => .error (t.order + 1)
  | some v1 =>
    match _get_task_from_version t.display_name t.build_variant v1 with
    | none => .ok none
    | some task_one_ahead =>
      match cache_get cached_versions (t.order + 2) with
      | none => .error (t.order + 2)
      | some v2 =>
        match _get_task_from_version t.display_name t.build_variant v2 with
        | none => .ok none
        | some task_two_ahead =>
          if !(_task_failed task_one_ahead) || !(_task_failed task_two_ahead)
          then .ok none
          else
            let tests_one_ahead := task_one_ahead.get_tests "fail"
            let tests_two_ahead := task_two_ahead.get_tests "fail"
            let failing_tests_groupings := failing_tests.filterMap
              (fun test =>
                match _find_test test tests_one_ahead,
                    _find_test test tests_two_ahead with
                | some _, some _ =>
                  some { test := test
                         ending_commit :=
                           resolve_ending_commit t cached_versions test
                         beginning_commit :=
                           _check_for_beginning_commit test t
                             version_before_current :
                         TestEndingCommitGrouping }
                | _, _ => none)
            if failing_tests_groupings.length = 0 then .ok none
            else
              .ok (some (failing_tests_groupings.map (fun g =>
                FailureStreak.create_new project_id t.display_name g.test
                  t.build_variant
                  [ { version_id := t.version_id, order := t.order },
                    { version_id := task_one_ahead.version_id,
                      order := task_one_ahead.order },
                    { version_id := task_two_ahead.version_id,
                      order := task_two_ahead.order } ]
                  g.beginning_commit g.ending_commit)))

/-- The result of one driver pass: the final store, the orders of the versions
whose builds were actually walked, and the final version cache. -/
structure PassResult where
  store : Store
  evaluated : List Nat
  cache : Cache
deriving DecidableEq, Repr

/-- The per-task body of the driver's innermost loop: failing or timed-out
tasks first try to extend existing streaks, then run the detector on the
non-matching tests, inserting any minted streaks. -/
def process_task (st : Store) (cache : Cache) (t : Task) (proj : String)
    (version_before_current : Version) : Except Nat Store :=
  if _task_failed t || t.is_timeout then
    let stage := try_to_add_to_existing_streaks st (t.get_tests "fail") t proj
      (some version_before_current)
    if stage.2.length > 0 then
      match check_for_and_find_new_streaks t cache stage.2 proj
          (some version_before_current) with
      | .error k => .error k
      | .ok none => .ok stage.1
      | .ok (some new_streaks) => .ok (stage.1 ++ new_streaks)
    else .ok stage.1
  else .ok st

/-- The driver's walk over one version's builds: only builds whose display
name marks them required are evaluated, task by task. -/
def process_version (st : Store) (cache : Cache) (v : Version)
    (version_before_current : Version) : Except Nat Store :=
  v.builds.foldl
    (fun acc b =>
      match acc with
      | .error k => .error k
      | .ok s =>
        if _is_build_variant_required b.display_name then
          b.tasks.foldl
            (fun acc2 t =>
              match acc2 with
              | .error k => .error k
              | .ok s2 => process_task s2 cache t v.project
                  version_before_current)
            (.ok s)
        else .ok s)
    (.ok st)

/-- The driver loop of `main`: each version is cached; versions with order
above 36940 are skipped; when the three following orders are cached, the
version ONE AHEAD of the current one is evaluated, with the current version
passed as `version_before_current`. -/
def main_pass_aux : List Version → Cache → Store → List Nat →
    Except Nat PassResult
  | [], cache, st, log => .ok { store := st, evaluated := log, cache := cache }
  | v :: rest, cache, st, log =>
    let cache1 : Cache := (v.order, v) :: cache
    if v.order > 36940 then main_pass_aux rest cache1 st log
    else
      match cache_get cache1 (v.order + 1), cache_get cache1 (v.order + 2),
          cache_get cache1 (v.order + 3) with
      | some v1, some _, some _ =>
        match process_version st cache1 v1 v with
        | .error k => .error k
        | .ok st1 => main_pass_aux rest cache1 st1 (log ++ [v1.order])
      | _, _, _ => main_pass_aux rest cache1 st log

/-- One full detection pass of `main` over the version feed, starting from a
given store state. -/
def main_pass (versions : List Version) (s0 : Store) :
    Except Nat PassResult :=
  main_pass_aux versions [] s0 []

/-- The store left by a pass, or `[]` if the pass raised `KeyError`. -/
def pass_store (e : Except Nat PassResult) : Store :=
  match e with
  | .ok r => r.store
  | .error _ => []

/-- The evaluated-version log of a pass, or `[]` on `KeyError`. -/
def pass_evaluated (e : Except Nat PassResult) : List Nat :=
  match e with
  | .ok r => r.evaluated
  | .error _ => []

/-- Coherence of the version cache: every entry is keyed by its version's
order, and the tasks inside a cached version carry that version's order and
version id.  This is how the driver populates the cache
(`cached_versions[version.order] = version`) from provider data. -/
def cache_coherent (c : Cache) : Prop :=
  ∀ p ∈ c, p.2.order = p.1 ∧
    ∀ b ∈ p.2.builds, ∀ tk ∈ b.tasks, tk.order = p.1 ∧
      tk.version_id = p.2.version_id

/-- A test result used throughout the concrete scenarios. -/
def tstT : Tst := { test_file := "T" }

/-- A concrete task for test scenarios: fixed identity `tk` / `bv`. -/
def demo_task (o : Nat) (vid status : String) (ft pt : List Tst) : Task :=
  { display_name := "tk", build_variant := "bv", status := status,
    is_timeout := false, order := o, version_id := vid,
    fail_tests := ft, pass_tests := pt }

/-- A concrete version holding one task in a required build of variant `bv`. -/
def demo_version (o : Nat) (vid : String) (tk : Task) : Version :=
  { version_id := vid, order := o, project := "p",
    builds := [{ display_name := "!bv", build_variant := "bv",
                 tasks := [tk] }] }

/-- A stored streak whose failing versions sit at orders 100, 101, 102. -/
def streak100 : FailureStreak :=
  { project := "p", build_variant := "bv", task := "tk", test := "T",
    beginning_commit := none, ending_commit := none,
    failing_versions :=
      [ { version_id := "v100", order := 100 },
        { version_id := "v101", order := 101 },
        { version_id := "v102", order := 102 } ] }

/-- `streak100` with an already-resolved beginning commit at order 97. -/
def streakB : FailureStreak :=
  { streak100 with beginning_commit := some { version_id := "v97", order := 97 } }

/-- A failing run of the same test at order 99. -/
def task99 : Task := demo_task 99 "v99" "failed" [tstT] []

/-- A failing run of the same test at order 103. -/
def task103 : Task := demo_task 103 "v103" "failed" [tstT] []

/-- A failing run of the same test at order 101. -/
def task101 : Task := demo_task 101 "v101" "failed" [tstT] []

/-- A version at order 98 where the test passes. -/
def demo_v98 : Version :=
  demo_version 98 "v98" (demo_task 98 "v98" "success" [] [tstT])

/-- A cached window for a detector run at order 101: the task fails at 102
and 103, and the test passes at 104. -/
def demo_cache : Cache :=
  [ (102, demo_version 102 "v102" (demo_task 102 "v102" "failed" [tstT] [])),
    (103, demo_version 103 "v103" (demo_task 103 "v103" "failed" [tstT] [])),
    (104, demo_version 104 "v104" (demo_task 104 "v104" "success" [] [tstT])) ]

/-- A version at order 104 that has no builds at all. -/
def demo_v104_no_builds : Version :=
  { version_id := "v104x", order := 104, project := "p", builds := [] }

/-- A version whose required build holds two tasks with the same display
name. -/
def demo_v_dup : Version :=
  { version_id := "vdup", order := 50, project := "p",
    builds := [{ display_name := "!bv", build_variant := "bv",
                 tasks := [demo_task 50 "vdup" "failed" [tstT] [],
                           demo_task 50 "vdup" "failed" [tstT] []] }] }

/-- A feed in the provider's descending order: the test fails at orders
101–103 and passes at 100. -/
def c3feed : List Version :=
  [ demo_version 103 "v103" (demo_task 103 "v103" "failed" [tstT] []),
    demo_version 102 "v102" (demo_task 102 "v102" "failed" [tstT] []),
    demo_version 101 "v101" (demo_task 101 "v101" "failed" [tstT] []),
    demo_version 100 "v100" (demo_task 100 "v100" "success" [] [tstT]) ]

/-- The streak record the first pass over `c3feed` writes. -/
def c3streak1 : FailureStreak :=
  { project := "p", build_variant := "bv", task := "tk", test := "T",
    beginning_commit := some { version_id := "v100", order := 100 },
    ending_commit := none,
    failing_versions :=
      [ { version_id := "v101", order := 101 },
        { version_id := "v102", order := 102 },
        { version_id := "v103", order := 103 } ] }

/-- Feed versions straddling the driver's hard-coded order cutoff 36940. -/
def c10v36943 : Version :=
  demo_version 36943 "v36943" (demo_task 36943 "v36943" "failed" [tstT] [])

/-- Feed version at order 36942. -/
def c10v36942 : Version :=
  demo_version 36942 "v36942" (demo_task 36942 "v36942" "failed" [tstT] [])

/-- Feed version at order 36941. -/
def c10v36941 : Version :=
  demo_version 36941 "v36941" (demo_task 36941 "v36941" "failed" [tstT] [])

/-- Feed version at order 36940, where the test passes. -/
def c10v36940 : Version :=
  demo_version 36940 "v36940" (demo_task 36940 "v36940" "success" [] [tstT])

/-- A descending feed around the cutoff: failures at 36941–36943, pass at
36940. -/
def c10feed : List Version :=
  [c10v36943, c10v36942, c10v36941, c10v36940]

/-- The streak the pass over `c10feed` stores, rooted at order 36941. -/
def c10streak : FailureStreak :=
  { project := "p", build_variant := "bv", task := "tk", test := "T",
    beginning_commit := some { version_id := "v36940", order := 36940 },
    ending_commit := none,
    failing_versions :=
      [ { version_id := "v36941", order := 36941 },
        { version_id := "v36942", order := 36942 },
        { version_id := "v36943", order := 36943 } ] }

/-- The full result of the pass over `c10feed` from an empty store. -/
def c10result : PassResult :=
  { store := [c10streak], evaluated := [36941],
    cache := [ (36940, c10v36940), (36941, c10v36941),
               (36942, c10v36942), (36943, c10v36943) ] }

/-- Updating the first match: the image of the found element is in the result. -/
theorem update_first_mem_of_find? {α : Type} (p : α → Bool) (f : α → α)
    (l : List α) (x : α) (h : l.find? p = some x) :
    f x ∈ update_first p f l := by
  induction l with
  | nil => simp [List.find?] at h
  | cons y ys ih =>
    by_cases hy : p y = true
    · rw [List.find?_cons_of_pos _ hy] at h
      cases h
      simp [update_first, hy]
    · rw [List.find?_cons_of_neg _ (by simpa using hy)] at h
      simp [update_first, hy]
      exact Or.inr (ih h)

/-- A filter known to have at most one element and containing `x` is `[x]`. -/
theorem filter_eq_singleton_of_mem_of_le_one {α : Type} (p : α → Bool)
    (l : List α) (x : α) (hx : x ∈ l.filter p) (hlen : (l.filter p).length ≤ 1) :
    l.filter p = [x] := by
  rcases hf : l.filter p with _ | ⟨a, _ | ⟨b, rest⟩⟩
  · rw [hf] at hx; cases hx
  · rw [hf] at hx
    rw [List.mem_singleton.mp hx]
  · rw [hf] at hlen; simp at hlen

/-- `_get_task_from_version` succeeds exactly when filtering the variant's
tasks by display name yields the singleton. -/
theorem _get_task_from_version_eq_some_iff (task_name bv : String)
    (v : Version) (tk : Task) :
    _get_task_from_version task_name bv v = some tk ↔
      (v.build_by_variant_tasks bv).filter
        (fun x => x.display_name == task_name) = [tk] := by
  unfold _get_task_from_version
  split
  · next a heq => simp [heq]
  · next hne =>
    constructor
    · intro h; cases h
    · intro h; exact absurd h (hne tk)

/-- A found task belongs to the variant's tasks and has the queried name. -/
theorem _get_task_from_version_some_mem (task_name bv : String)
    (v : Version) (tk : Task)
    (h : _get_task_from_version task_name bv v = some tk) :
    tk ∈ v.build_by_variant_tasks bv ∧ tk.display_name = task_name := by
  rw [_get_task_from_version_eq_some_iff] at h
  have hx : tk ∈ (v.build_by_variant_tasks bv).filter
      (fun x => x.display_name == task_name) := by rw [h]; exact List.mem_singleton.mpr rfl
  have := List.mem_filter.mp hx
  exact ⟨this.1, by simpa using this.2⟩

/-- `_find_test` succeeds exactly when filtering by test file is a singleton. -/
theorem _find_test_eq_some_iff (test_name : String) (tests : List Tst)
    (te : Tst) :
    _find_test test_name tests = some te ↔
      tests.filter (fun x => x.test_file == test_name) = [te] := by
  unfold _find_test
  split
  · next a heq => simp [heq]
  · next hne =>
    constructor
    · intro h; cases h
    · intro h; exact absurd h (hne te)

/-- A found test belongs to the list and has the queried file name. -/
theorem _find_test_some_mem (test_name : String) (tests : List Tst) (te : Tst)
    (h : _find_test test_name tests = some te) :
    te ∈ tests ∧ te.test_file = test_name := by
  rw [_find_test_eq_some_iff] at h
  have hx : te ∈ tests.filter (fun x => x.test_file == test_name) := by
    rw [h]; exact List.mem_singleton.mpr rfl
  have := List.mem_filter.mp hx
  exact ⟨this.1, by simpa using this.2⟩

/-- Membership in a variant's task list comes from some build of the version. -/
theorem mem_build_by_variant_tasks (v : Version) (bv : String) (tk : Task)
    (h : tk ∈ v.build_by_variant_tasks bv) :
    ∃ b ∈ v.builds, tk ∈ b.tasks := by
  unfold Version.build_by_variant_tasks at h
  rcases List.mem_flatMap.mp h with ⟨b, hb, htk⟩
  exact ⟨b, (List.mem_filter.mp hb).1, htk⟩

/-- A successful cache lookup returns the entry stored under that key. -/
theorem cache_get_mem (c : Cache) (k : Nat) (v : Version)
    (h : cache_get c k = some v) : (k, v) ∈ c := by
  unfold cache_get at h
  rcases hf : c.find? (fun p => p.1 == k) with _ | p
  · rw [hf] at h; cases h
  · rw [hf] at h
    cases h
    have h1 := List.find?_some hf
    have h2 : p ∈ c := List.mem_of_find?_eq_some hf
    have h3 : p.1 = k := by simpa using h1
    have : p = (k, p.2) := by
      cases p; simp_all
    rw [this] at h2
    exact h2

/-- In a coherent cache, a lookup returns a version whose order is the key
and whose tasks carry the key order and the version's id. -/
theorem cache_get_coherent (c : Cache) (k : Nat) (v : Version)
    (hc : cache_coherent c) (h : cache_get c k = some v) :
    v.order = k ∧ ∀ b ∈ v.builds, ∀ tk ∈ b.tasks,
      tk.order = k ∧ tk.version_id = v.version_id := by
  have := hc (k, v) (cache_get_mem c k v h)
  simpa using this

/-- C1 counterexample: for a stored streak with failing versions at orders
100, 101, 102, a later failure of the same test at order 103 does NOT extend
the streak — the matcher's query looks for an entry at `order + 1 = 104`, so
`tryExtend` fails, the store is unchanged, and the test is reported as
non-matching. -/
theorem c1_counterexample :
    _can_add_to_existing_streak [streak100] tstT task103 "p" = false ∧
    try_to_add_to_existing_streaks [streak100] [tstT] task103 "p" none =
      ([streak100], ["T"]) := by
  decide

/-- C1 (amended): the matcher extends an existing streak exactly when a
persisted record for the same (project, build_variant, task, test) identity
has SOME failing-versions entry at order `C.order + 1` (one commit AHEAD of
`C`, the feed being walked in descending order), and the extension appends
`C`; for a stored streak at orders [100,101,102], a later failure at order 99
succeeds and failing_versions becomes [100,101,102,99]. -/
theorem c1_matcher_extends_one_ahead (collection : Store) (failing_test : Tst)
    (t : Task) (project_id : String) :
    (_can_add_to_existing_streak collection failing_test t project_id = true ↔
      ∃ r ∈ collection, r.project = project_id ∧
        r.build_variant = t.build_variant ∧ r.task = t.display_name ∧
        r.test = failing_test.test_file ∧
        ∃ c ∈ r.failing_versions, c.order = t.order + 1) ∧
    _can_add_to_existing_streak [streak100] tstT task99 "p" = true ∧
    _add_test_to_existing_streak [streak100] tstT task99 "p" none =
      [{ streak100 with
          failing_versions := streak100.failing_versions ++
            [{ version_id := "v99", order := 99 }] }] := by
  refine ⟨?_, by decide, by decide⟩
  unfold _can_add_to_existing_streak
  rw [List.find?_isSome]
  constructor
  · rintro ⟨r, hr, hq⟩
    refine ⟨r, hr, ?_⟩
    unfold streak_query at hq
    simp only [Bool.and_eq_true, beq_iff_eq, List.any_eq_true] at hq
    obtain ⟨⟨⟨⟨h1, h2⟩, h3⟩, h4⟩, c, hc, h5⟩ := hq
    exact ⟨h1, h2, h3, h4, c, hc, h5⟩
  · rintro ⟨r, hr, h1, h2, h3, h4, c, hc, h5⟩
    refine ⟨r, hr, ?_⟩
    unfold streak_query
    simp only [Bool.and_eq_true, beq_iff_eq, List.any_eq_true]
    exact ⟨⟨⟨⟨h1, h2⟩, h3⟩, h4⟩, c, hc, h5⟩

/-- C2 counterexample: extending the stored streak [100,101,102] at a failure
of order 99 appends order 99 AFTER order 102, so failing_versions is no
longer strictly increasing by order. -/
theorem c2_counterexample :
    _add_test_to_existing_streak [streak100] tstT task99 "p" none =
      [{ streak100 with
          failing_versions :=
            [ { version_id := "v100", order := 100 },
              { version_id := "v101", order := 101 },
              { version_id := "v102", order := 102 },
              { version_id := "v99", order := 99 } ] }] ∧
    ¬ List.Pairwise (fun a b => a < b)
      (((streak100.failing_versions ++
        [(⟨"v99", 99⟩ : Commit)]).map Commit.order)) := by
  refine ⟨by decide, by decide⟩

/-- C2 (amended): `failing_versions` stays non-empty, but a successful
extension appends a commit whose order is exactly one BELOW the order of some
entry already present (the matched entry at `t.order + 1`), so the sequence
is not strictly increasing after an extension; strict increase holds only
within the three entries written at creation. -/
theorem c2_extension_appends_adjacent_lower (collection : Store)
    (failing_test : Tst) (t : Task) (project_id : String) (bc : Option Commit)
    (h : _can_add_to_existing_streak collection failing_test t project_id =
      true) :
    ∃ r ∈ collection,
      (∃ c ∈ r.failing_versions, c.order = t.order + 1 ∧ t.order < c.order) ∧
      appended_record r { version_id := t.version_id, order := t.order } bc ∈
        _add_test_to_existing_streak collection failing_test t project_id bc ∧
      (appended_record r { version_id := t.version_id, order := t.order }
          bc).failing_versions =
        r.failing_versions ++ [{ version_id := t.version_id, order := t.order }] ∧
      (appended_record r { version_id := t.version_id, order := t.order }
          bc).failing_versions ≠ [] := by
  unfold _can_add_to_existing_streak at h
  rw [Option.isSome_iff_exists] at h
  obtain ⟨r, hr⟩ := h
  have hmem : r ∈ collection := List.mem_of_find?_eq_some hr
  have hq := List.find?_some hr
  unfold streak_query at hq
  simp only [Bool.and_eq_true, beq_iff_eq, List.any_eq_true] at hq
  obtain ⟨-, c, hc, hco⟩ := hq
  refine ⟨r, hmem, ⟨c, hc, hco, by omega⟩, ?_, by simp [appended_record],
    by simp [appended_record]⟩
  unfold _add_test_to_existing_streak
  exact update_first_mem_of_find? _ _ _ _ hr

/-- C2 witness: the general extension lemma applied to the concrete store
holding `streak100` and a failure at order 99. -/
theorem c2_witness :
    ∃ r ∈ [streak100],
      (∃ c ∈ r.failing_versions,
        c.order = task99.order + 1 ∧ task99.order < c.order) ∧
      appended_record r ⟨"v99", 99⟩ none ∈
        _add_test_to_existing_streak [streak100] tstT task99 "p" none ∧
      (appended_record r ⟨"v99", 99⟩ none).failing_versions =
        r.failing_versions ++ [⟨"v99", 99⟩] ∧
      (appended_record r ⟨"v99", 99⟩ none).failing_versions ≠ [] :=
  c2_extension_appends_adjacent_lower [streak100] tstT task99 "p" none
    (by decide)

/-- C4: at a concrete input where the detector mints a streak at commit 101
and the test is confirmed passing at order 104 (= 101 + 3), the stored
`ending_commit` is the CURRENT commit (order 101, the first failing commit of
the streak), not the commit at order 104 that the spec promises. -/
theorem c4_ending_commit_is_current_commit :
    check_for_and_find_new_streaks task101 demo_cache ["T"] "p" none =
      .ok (some
        [ { project := "p", build_variant := "bv", task := "tk", test := "T",
            beginning_commit := none,
            ending_commit := some { version_id := "v101", order := 101 },
            failing_versions :=
              [ { version_id := "v101", order := 101 },
                { version_id := "v102", order := 102 },
                { version_id := "v103", order := 103 } ] } ]) ∧
    task101.order = 101 ∧ (101 : Nat) ≠ 101 + 3 := by
  exact ⟨rfl, rfl, by decide⟩

/-- C5 counterexample: on an empty cache the detector raises `KeyError`
(modelled as `Except.error` carrying the missing order 104) instead of
returning the no-decision result. -/
theorem c5_counterexample :
    check_for_and_find_new_streaks task103 [] ["T"] "p" none =
      .error 104 ∧
    (Except.error 104 :
        Except Nat (Option (List FailureStreak))) ≠ .ok none := by
  exact ⟨rfl, by simp⟩

/-- C5 (amended): a missing cache entry at `C.order + 1` or `C.order + 2`
makes the detector raise `KeyError` for that order (the driver shields this
by only invoking it when those orders are cached); the non-raising
no-decision result arises when the commits are cached but the task run is
absent there. -/
theorem c5_cache_miss_raises (t : Task) (cached : Cache)
    (failing_tests : List String) (project_id : String)
    (vbc : Option Version) :
    (cache_get cached (t.order + 1) = none →
      check_for_and_find_new_streaks t cached failing_tests project_id vbc =
        .error (t.order + 1)) ∧
    (∀ v1, cache_get cached (t.order + 1) = some v1 →
      _get_task_from_version t.display_name t.build_variant v1 = none →
      check_for_and_find_new_streaks t cached failing_tests project_id vbc =
        .ok none) ∧
    (∀ v1 tk1, cache_get cached (t.order + 1) = some v1 →
      _get_task_from_version t.display_name t.build_variant v1 = some tk1 →
      cache_get cached (t.order + 2) = none →
      check_for_and_find_new_streaks t cached failing_tests project_id vbc =
        .error (t.order + 2)) := by
  refine ⟨?_, ?_, ?_⟩
  · intro h1
    unfold check_for_and_find_new_streaks
    rw [h1]
  · intro v1 h1 h2
    simp only [check_for_and_find_new_streaks, h1, h2]
  · intro v1 tk1 h1 h2 h3
    simp only [check_for_and_find_new_streaks, h1, h2, h3]

/-- C5 witness: the amended behavior at concrete inputs — an empty cache
raises for order 104, and a cached order 104 without the task yields the
no-decision result. -/
theorem c5_witness :
    check_for_and_find_new_streaks task103 [(104, demo_v104_no_builds)] ["T"]
      "p" none = .ok none :=
  (c5_cache_miss_raises task103 [(104, demo_v104_no_builds)] ["T"] "p"
    none).2.1 demo_v104_no_builds rfl rfl

/-- Requesting the passing tests returns the pass list. -/
theorem get_tests_pass (t : Task) : t.get_tests "pass" = t.pass_tests := by
  simp [Task.get_tests]

/-- Requesting the failing tests returns the fail list. -/
theorem get_tests_fail (t : Task) : t.get_tests "fail" = t.fail_tests := by
  simp [Task.get_tests]

/-- A successful match on a singleton test list reduces the extension walk to
the single conditional append. -/
theorem try_to_add_singleton (collection : Store) (te : Tst) (t : Task)
    (project_id : String) (vbc : Option Version)
    (hcan : _can_add_to_existing_streak collection te t project_id = true) :
    try_to_add_to_existing_streaks collection [te] t project_id vbc =
      (_add_test_to_existing_streak collection te t project_id
        (_check_for_beginning_commit te.test_file t vbc), []) := by
  unfold try_to_add_to_existing_streaks
  simp [hcan]

/-- C7 counterexample: a stored streak whose `beginning_commit` is already set
(order 97) gets it OVERWRITTEN (to order 98) when an extension resolves a
beginning commit, contradicting "written only when the stored record lacks
one". -/
theorem c7_counterexample :
    (try_to_add_to_existing_streaks [streakB] [tstT] task99 "p"
        (some demo_v98)).1 =
      [{ streakB with
          failing_versions := streakB.failing_versions ++ [⟨"v99", 99⟩],
          beginning_commit := some ⟨"v98", 98⟩ }] ∧
    streakB.beginning_commit = some ⟨"v97", 97⟩ ∧
    (some (⟨"v98", 98⟩ : Commit)) ≠ streakB.beginning_commit := by
  refine ⟨by decide, by decide, by decide⟩

/-- C7 (amended): when the extension resolves a beginning commit it is always
written to the matched record, overwriting any previously stored value; when
no beginning commit is resolved, the stored value is left unchanged. -/
theorem c7_beginning_commit_overwritten (collection : Store)
    (failing_test : Tst) (t : Task) (project_id : String) (r : FailureStreak)
    (b : Commit)
    (h : collection.find? (streak_query project_id t.build_variant
      t.display_name failing_test.test_file (t.order + 1)) = some r) :
    (appended_record r ⟨t.version_id, t.order⟩ (some b) ∈
      _add_test_to_existing_streak collection failing_test t project_id
        (some b)) ∧
    (appended_record r ⟨t.version_id, t.order⟩ (some b)).beginning_commit =
      some b ∧
    (appended_record r ⟨t.version_id, t.order⟩ none ∈
      _add_test_to_existing_streak collection failing_test t project_id
        none) ∧
    (appended_record r ⟨t.version_id, t.order⟩ none).beginning_commit =
      r.beginning_commit := by
  refine ⟨?_, by simp [appended_record], ?_, by simp [appended_record]⟩
  · exact update_first_mem_of_find? _ _ _ _ h
  · exact update_first_mem_of_find? _ _ _ _ h

/-- C7 witness: the overwrite behavior at the concrete store `[streakB]`. -/
theorem c7_witness :
    (appended_record streakB ⟨"v99", 99⟩ (some ⟨"vX", 42⟩) ∈
      _add_test_to_existing_streak [streakB] tstT task99 "p"
        (some ⟨"vX", 42⟩)) ∧
    (appended_record streakB ⟨"v99", 99⟩
      (some ⟨"vX", 42⟩)).beginning_commit = some ⟨"vX", 42⟩ ∧
    (appended_record streakB ⟨"v99", 99⟩ none ∈
      _add_test_to_existing_streak [streakB] tstT task99 "p" none) ∧
    (appended_record streakB ⟨"v99", 99⟩ none).beginning_commit =
      streakB.beginning_commit :=
  c7_beginning_commit_overwritten [streakB] tstT task99 "p" streakB
    ⟨"vX", 42⟩ (by decide)

/-- C9: duplicate names are treated as absence — a test lookup over a result
list with two or more entries for the queried file returns none, and a task
lookup returns none whenever the display-name filter over the variant's
tasks is not a singleton (zero or two-or-more matches). -/
theorem c9_duplicate_names_treated_as_absent (test_name : String)
    (tests : List Tst) (task_name bv : String) (v : Version) :
    (2 ≤ (tests.filter (fun te => te.test_file == test_name)).length →
      _find_test test_name tests = none) ∧
    (((v.build_by_variant_tasks bv).filter
        (fun tk => tk.display_name == task_name)).length ≠ 1 →
      _get_task_from_version task_name bv v = none) := by
  constructor
  · intro h
    unfold _find_test
    split
    · next te heq => rw [heq] at h; simp at h
    · rfl
  · intro h
    unfold _get_task_from_version
    split
    · next tk heq => rw [heq] at h; simp at h
    · rfl

/-- C9 witness: a duplicated test entry and a version with two same-named
tasks, both resolving to none. -/
theorem c9_witness :
    _find_test "T" [tstT, tstT] = none ∧
    _get_task_from_version "tk" "bv" demo_v_dup = none :=
  ⟨(c9_duplicate_names_treated_as_absent "T" [tstT, tstT] "tk" "bv"
      demo_v_dup).1 (by decide),
   (c9_duplicate_names_treated_as_absent "T" [tstT, tstT] "tk" "bv"
      demo_v_dup).2 (by decide)⟩

/-- C3 counterexample: running the full pass a second time over the unchanged
feed `c3feed` and the store the first pass produced does NOT leave the store
unchanged — the already-recorded commit at order 101 matches the extension
predicate (its record contains order 102) and is appended again as a
duplicate. -/
theorem c3_counterexample :
    pass_store (main_pass c3feed []) = [c3streak1] ∧
    pass_store (main_pass c3feed [c3streak1]) =
      [{ c3streak1 with
          failing_versions := c3streak1.failing_versions ++
            [⟨"v101", 101⟩] }] ∧
    pass_store (main_pass c3feed [c3streak1]) ≠ [c3streak1] := by
  refine ⟨by decide, by decide, by decide⟩

/-- C3 (amended): a second pass inserts no duplicate streak record (a test
matched by the extension predicate is excluded from new-streak creation), but
it is NOT a no-op: re-processing a commit whose record also contains the next
order matches the extension predicate again and appends a duplicate entry
for that commit. -/
theorem c3_reprocessing_appends_duplicate (collection : Store)
    (failing_test : Tst) (t : Task) (project_id : String)
    (vbc : Option Version) (r : FailureStreak)
    (hfind : collection.find? (streak_query project_id t.build_variant
      t.display_name failing_test.test_file (t.order + 1)) = some r)
    (hmem : (⟨t.version_id, t.order⟩ : Commit) ∈ r.failing_versions) :
    (try_to_add_to_existing_streaks collection [failing_test] t project_id
      vbc).2 = [] ∧
    appended_record r ⟨t.version_id, t.order⟩
        (_check_for_beginning_commit failing_test.test_file t vbc) ∈
      (try_to_add_to_existing_streaks collection [failing_test] t project_id
        vbc).1 ∧
    2 ≤ ((appended_record r ⟨t.version_id, t.order⟩
        (_check_for_beginning_commit failing_test.test_file t
          vbc)).failing_versions.count ⟨t.version_id, t.order⟩) := by
  have hcan : _can_add_to_existing_streak collection failing_test t
      project_id = true := by
    unfold _can_add_to_existing_streak
    rw [hfind]
    rfl
  rw [try_to_add_singleton collection failing_test t project_id vbc hcan]
  refine ⟨rfl, ?_, ?_⟩
  · exact update_first_mem_of_find? _ _ _ _ hfind
  · have h1 : 0 < r.failing_versions.count (⟨t.version_id, t.order⟩ : Commit) :=
      List.count_pos_iff.mpr hmem
    have h2 : (appended_record r ⟨t.version_id, t.order⟩
        (_check_for_beginning_commit failing_test.test_file t
          vbc)).failing_versions.count (⟨t.version_id, t.order⟩ : Commit) =
        r.failing_versions.count (⟨t.version_id, t.order⟩ : Commit) + 1 := by
      simp [appended_record]
    omega

/-- C3 witness: re-processing commit 101 against the store already holding
`c3streak1` (orders 101–103) appends a second copy of commit 101. -/
theorem c3_witness :
    (try_to_add_to_existing_streaks [c3streak1] [tstT] task101 "p"
      none).2 = [] ∧
    appended_record c3streak1 ⟨"v101", 101⟩
        (_check_for_beginning_commit "T" task101 none) ∈
      (try_to_add_to_existing_streaks [c3streak1] [tstT] task101 "p"
        none).1 ∧
    2 ≤ ((appended_record c3streak1 ⟨"v101", 101⟩
        (_check_for_beginning_commit "T" task101
          none)).failing_versions.count ⟨"v101", 101⟩) :=
  c3_reprocessing_appends_duplicate [c3streak1] tstT task101 "p" none
    c3streak1 (by decide) (by decide)

/-- C8: the beginning-commit check is a pure total lookup.  With no earlier
version supplied it returns none; with one supplied (whose task data is
coherent and duplicate-free), it returns that version's commit exactly when a
task run with the queried name exists in the queried variant and the test
appears among that run's passing tests; and in every case the result is
either none or that commit — never anything else and never an error. -/
theorem c8_beginning_commit_pure_lookup (test_name : String) (t : Task)
    (v : Version)
    (hcoh : ∀ b ∈ v.builds, ∀ tk ∈ b.tasks,
      tk.order = v.order ∧ tk.version_id = v.version_id)
    (hu1 : ((v.build_by_variant_tasks t.build_variant).filter
      (fun tk => tk.display_name == t.display_name)).length ≤ 1)
    (hu2 : ∀ tk ∈ v.build_by_variant_tasks t.build_variant,
      (tk.pass_tests.filter (fun te => te.test_file == test_name)).length ≤ 1) :
    _check_for_beginning_commit test_name t none = none ∧
    (_check_for_beginning_commit test_name t (some v) =
        some ⟨v.version_id, v.order⟩ ↔
      ∃ tk ∈ v.build_by_variant_tasks t.build_variant,
        tk.display_name = t.display_name ∧
        ∃ te ∈ tk.pass_tests, te.test_file = test_name) ∧
    (_check_for_beginning_commit test_name t (some v) = none ∨
      _check_for_beginning_commit test_name t (some v) =
        some ⟨v.version_id, v.order⟩) := by
  have hfields : ∀ tk, _get_task_from_version t.display_name t.build_variant
      v = some tk → tk.order = v.order ∧ tk.version_id = v.version_id := by
    intro tk hg
    have hmem := (_get_task_from_version_some_mem _ _ _ _ hg).1
    rcases mem_build_by_variant_tasks v _ tk hmem with ⟨b, hb, htkb⟩
    exact hcoh b hb tk htkb
  refine ⟨rfl, ?_, ?_⟩
  · constructor
    · intro h
      rcases hg : _get_task_from_version t.display_name t.build_variant v
        with _ | tk
      · simp [_check_for_beginning_commit, hg] at h
      · rcases hf : _find_test test_name (tk.get_tests "pass") with _ | te
        · simp [_check_for_beginning_commit, hg, hf] at h
        · have h1 := _get_task_from_version_some_mem _ _ _ _ hg
          have h2 := _find_test_some_mem _ _ _ hf
          rw [get_tests_pass] at h2
          exact ⟨tk, h1.1, h1.2, te, h2.1, h2.2⟩
    · rintro ⟨tk, htk, hname, te, hte, hfile⟩
      have htkf : tk ∈ (v.build_by_variant_tasks t.build_variant).filter
          (fun x => x.display_name == t.display_name) :=
        List.mem_filter.mpr ⟨htk, by simp [hname]⟩
      have hfeq := filter_eq_singleton_of_mem_of_le_one _ _ _ htkf hu1
      have hg : _get_task_from_version t.display_name t.build_variant v =
          some tk := (_get_task_from_version_eq_some_iff _ _ _ _).mpr hfeq
      have htef : te ∈ tk.pass_tests.filter
          (fun x => x.test_file == test_name) :=
        List.mem_filter.mpr ⟨hte, by simp [hfile]⟩
      have hte1 := filter_eq_singleton_of_mem_of_le_one _ _ _ htef
        (hu2 tk htk)
      have hf : _find_test test_name (tk.get_tests "pass") = some te := by
        rw [get_tests_pass]
        exact (_find_test_eq_some_iff _ _ _).mpr hte1
      have hfi := hfields tk hg
      simp only [_check_for_beginning_commit, hg, hf]
      rw [hfi.1, hfi.2]
  · rcases hg : _get_task_from_version t.display_name t.build_variant v
      with _ | tk
    · left; simp [_check_for_beginning_commit, hg]
    · rcases hf : _find_test test_name (tk.get_tests "pass") with _ | te
      · left; simp [_check_for_beginning_commit, hg, hf]
      · right
        have hfi := hfields tk hg
        simp only [_check_for_beginning_commit, hg, hf]
        rw [hfi.1, hfi.2]

/-- C8 witness: the characterization applied to the version at order 98 in
which the test passes — the lookup returns exactly that commit. -/
theorem c8_witness :
    _check_for_beginning_commit "T" task99 none = none ∧
    (_check_for_beginning_commit "T" task99 (some demo_v98) =
        some ⟨"v98", 98⟩ ↔
      ∃ tk ∈ demo_v98.build_by_variant_tasks "bv",
        tk.display_name = "tk" ∧
        ∃ te ∈ tk.pass_tests, te.test_file = "T") ∧
    (_check_for_beginning_commit "T" task99 (some demo_v98) = none ∨
      _check_for_beginning_commit "T" task99 (some demo_v98) =
        some ⟨"v98", 98⟩) :=
  c8_beginning_commit_pure_lookup "T" task99 demo_v98 (by decide) (by decide)
    (by decide)

/-- C6: three-window confirmation.  Whenever the detector mints streaks for a
task at commit `C` (over a coherent cache), the task runs looked up at orders
`C.order + 1` and `C.order + 2` both exist, both have task-level status
`failed`, every minted streak's test appears among the failing tests of both,
and every minted streak's `failing_versions` is exactly the three commits at
orders `C.order`, `C.order + 1`, `C.order + 2`, strictly increasing. -/
theorem c6_three_window_confirmation (t : Task) (cached : Cache)
    (failing_tests : List String) (project_id : String)
    (vbc : Option Version) (streaks : List FailureStreak)
    (hc : cache_coherent cached)
    (h : check_for_and_find_new_streaks t cached failing_tests project_id
      vbc = .ok (some streaks)) :
    ∃ v1 v2 task_one_ahead task_two_ahead,
      cache_get cached (t.order + 1) = some v1 ∧
      cache_get cached (t.order + 2) = some v2 ∧
      _get_task_from_version t.display_name t.build_variant v1 =
        some task_one_ahead ∧
      _get_task_from_version t.display_name t.build_variant v2 =
        some task_two_ahead ∧
      _task_failed task_one_ahead = true ∧
      _task_failed task_two_ahead = true ∧
      ∀ s ∈ streaks,
        (∃ te1 ∈ task_one_ahead.fail_tests, te1.test_file = s.test) ∧
        (∃ te2 ∈ task_two_ahead.fail_tests, te2.test_file = s.test) ∧
        s.failing_versions =
          [ ⟨t.version_id, t.order⟩, ⟨v1.version_id, t.order + 1⟩,
            ⟨v2.version_id, t.order + 2⟩ ] ∧
        s.failing_versions.map Commit.order =
          [t.order, t.order + 1, t.order + 2] ∧
        List.Pairwise (fun a b => a < b)
          (s.failing_versions.map Commit.order) := by
  rcases hv1 : cache_get cached (t.order + 1) with _ | v1
  · simp [check_for_and_find_new_streaks, hv1] at h
  rcases hg1 : _get_task_from_version t.display_name t.build_variant v1
    with _ | one
  · simp [check_for_and_find_new_streaks, hv1, hg1] at h
  rcases hv2 : cache_get cached (t.order + 2) with _ | v2
  · simp [check_for_and_find_new_streaks, hv1, hg1, hv2] at h
  rcases hg2 : _get_task_from_version t.display_name t.build_variant v2
    with _ | two
  · simp [check_for_and_find_new_streaks, hv1, hg1, hv2, hg2] at h
  by_cases hfail : (!(_task_failed one) || !(_task_failed two)) = true
  · simp [check_for_and_find_new_streaks, hv1, hg1, hv2, hg2, hfail] at h
  have hfl : _task_failed one = true ∧ _task_failed two = true := by
    rcases Bool.eq_false_or_eq_true (_task_failed one) with h1 | h1 <;>
      rcases Bool.eq_false_or_eq_true (_task_failed two) with h2 | h2 <;>
        simp [h1, h2] at hfail ⊢
  -- coherence facts about the two looked-up task runs
  have hco1 := cache_get_coherent cached (t.order + 1) v1 hc hv1
  have hco2 := cache_get_coherent cached (t.order + 2) v2 hc hv2
  have hone : one.order = t.order + 1 ∧ one.version_id = v1.version_id := by
    have hmem := (_get_task_from_version_some_mem _ _ _ _ hg1).1
    rcases mem_build_by_variant_tasks v1 _ one hmem with ⟨b, hb, honeb⟩
    exact (hco1.2 b hb one honeb)
  have htwo : two.order = t.order + 2 ∧ two.version_id = v2.version_id := by
    have hmem := (_get_task_from_version_some_mem _ _ _ _ hg2).1
    rcases mem_build_by_variant_tasks v2 _ two hmem with ⟨b, hb, htwob⟩
    exact (hco2.2 b hb two htwob)
  refine ⟨v1, v2, one, two, rfl, rfl, hg1, hg2, hfl.1, hfl.2, ?_⟩
  -- reduce the detector's result under the established facts
  simp only [check_for_and_find_new_streaks, hv1, hg1, hv2, hg2] at h
  rw [if_neg hfail] at h
  by_cases hlen :
    (failing_tests.filterMap (fun test =>
      match _find_test test (one.get_tests "fail"),
          _find_test test (two.get_tests "fail") with
      | some _, some _ =>
        some ({ test := test,
                ending_commit := resolve_ending_commit t cached test,
                beginning_commit := _check_for_beginning_commit test t vbc } :
          TestEndingCommitGrouping)
      | _, _ => none)).length = 0
  · rw [if_pos hlen] at h
    cases h
  rw [if_neg hlen] at h
  injection h with h1
  injection h1 with h2
  subst h2
  intro s hs
  rcases List.mem_map.mp hs with ⟨g, hgmem, hsg⟩
  rcases List.mem_filterMap.mp hgmem with ⟨test, -, hmatch⟩
  rcases hf1 : _find_test test (one.get_tests "fail") with _ | te1
  · rw [hf1] at hmatch
    rcases hx : _find_test test (two.get_tests "fail") with _ | te2 <;>
      rw [hx] at hmatch <;> cases hmatch
  rcases hf2 : _find_test test (two.get_tests "fail") with _ | te2
  · rw [hf1, hf2] at hmatch
    cases hmatch
  rw [hf1, hf2] at hmatch
  cases hmatch
  have hte1 := _find_test_some_mem _ _ _ hf1
  have hte2 := _find_test_some_mem _ _ _ hf2
  rw [get_tests_fail] at hte1 hte2
  subst hsg
  refine ⟨⟨te1, hte1.1, ?_⟩, ⟨te2, hte2.1, ?_⟩, ?_, ?_, ?_⟩
  · exact hte1.2
  · exact hte2.2
  · simp [FailureStreak.create_new, hone.1, hone.2, htwo.1, htwo.2]
  · simp [FailureStreak.create_new, hone.1, htwo.1]
  · simp only [FailureStreak.create_new, List.map_cons, List.map_nil,
      hone.1, htwo.1]
    refine List.pairwise_cons.mpr ⟨?_, List.pairwise_cons.mpr ⟨?_, ?_⟩⟩
    · intro b hb
      rcases List.mem_cons.mp hb with rfl | hb
      · omega
      · rcases List.mem_cons.mp hb with rfl | hb
        · omega
        · cases hb
    · intro b hb
      rcases List.mem_cons.mp hb with rfl | hb
      · omega
      · cases hb
    · exact List.pairwise_singleton _ _

/-- C6 witness: the confirmation property at the concrete coherent window
`demo_cache` around a failure at order 101. -/
theorem c6_witness :
    ∃ v1 v2 task_one_ahead task_two_ahead,
      cache_get demo_cache (task101.order + 1) = some v1 ∧
      cache_get demo_cache (task101.order + 2) = some v2 ∧
      _get_task_from_version task101.display_name task101.build_variant v1 =
        some task_one_ahead ∧
      _get_task_from_version task101.display_name task101.build_variant v2 =
        some task_two_ahead ∧
      _task_failed task_one_ahead = true ∧
      _task_failed task_two_ahead = true ∧
      ∀ s ∈ [FailureStreak.create_new "p" "tk" "T" "bv"
          [⟨"v101", 101⟩, ⟨"v102", 102⟩, ⟨"v103", 103⟩] none
          (some ⟨"v101", 101⟩)],
        (∃ te1 ∈ task_one_ahead.fail_tests, te1.test_file = s.test) ∧
        (∃ te2 ∈ task_two_ahead.fail_tests, te2.test_file = s.test) ∧
        s.failing_versions =
          [ ⟨task101.version_id, task101.order⟩,
            ⟨v1.version_id, task101.order + 1⟩,
            ⟨v2.version_id, task101.order + 2⟩ ] ∧
        s.failing_versions.map Commit.order =
          [task101.order, task101.order + 1, task101.order + 2] ∧
        List.Pairwise (fun a b => a < b)
          (s.failing_versions.map Commit.order) :=
  c6_three_window_confirmation task101 demo_cache ["T"] "p" none
    [FailureStreak.create_new "p" "tk" "T" "bv"
      [⟨"v101", 101⟩, ⟨"v102", 102⟩, ⟨"v103", 103⟩] none
      (some ⟨"v101", 101⟩)]
    (by unfold cache_coherent; decide) rfl

/-- Every cache entry present at the start of the walk, and one entry per
feed version, survives into the final cache of a successful pass. -/
theorem main_pass_aux_cache_spec (l : List Version) (c : Cache) (st : Store)
    (log : List Nat) (r : PassResult)
    (h : main_pass_aux l c st log = .ok r) :
    (∀ p ∈ c, p ∈ r.cache) ∧ (∀ v ∈ l, (v.order, v) ∈ r.cache) := by
  induction l generalizing c st log with
  | nil =>
    unfold main_pass_aux at h
    cases h
    exact ⟨fun p hp => hp, fun v hv => absurd hv (List.not_mem_nil v)⟩
  | cons v rest ih =>
    unfold main_pass_aux at h
    have step : main_pass_aux rest ((v.order, v) :: c) st log = .ok r →
        (∀ p ∈ c, p ∈ r.cache) ∧ (∀ w ∈ v :: rest, (w.order, w) ∈ r.cache) := by
      intro h'
      have := ih _ _ _ h'
      refine ⟨fun p hp => this.1 p (List.mem_cons_of_mem _ hp), ?_⟩
      intro w hw
      rcases List.mem_cons.mp hw with rfl | hw'
      · exact this.1 (w.order, w) (List.mem_cons_self _ _)
      · exact this.2 w hw'
    by_cases hord : v.order > 36940
    · rw [if_pos hord] at h
      exact step h
    rw [if_neg hord] at h
    rcases e1 : cache_get ((v.order, v) :: c) (v.order + 1) with _ | v1 <;>
      rcases e2 : cache_get ((v.order, v) :: c) (v.order + 2) with _ | v2 <;>
        rcases e3 : cache_get ((v.order, v) :: c) (v.order + 3) with _ | v3 <;>
          simp only [e1, e2, e3] at h
    all_goals try exact step h
    rcases e4 : process_version st ((v.order, v) :: c) v1 v with k | st1 <;>
      rw [e4] at h
    · exact Except.noConfusion h
    · have := ih _ _ _ h
      refine ⟨fun p hp => this.1 p (List.mem_cons_of_mem _ hp), ?_⟩
      intro w hw
      rcases List.mem_cons.mp hw with rfl | hw'
      · exact this.1 (w.order, w) (List.mem_cons_self _ _)
      · exact this.2 w hw'

/-- Orders logged as evaluated never exceed 36941: the loop body only runs
for a version of order at most 36940 and then walks the version one order
ahead of it. -/
theorem main_pass_aux_eval_bound (l : List Version) (c : Cache) (st : Store)
    (log : List Nat) (r : PassResult)
    (hc : ∀ p ∈ c, p.2.order = p.1) (hlog : ∀ o ∈ log, o ≤ 36941)
    (h : main_pass_aux l c st log = .ok r) :
    ∀ o ∈ r.evaluated, o ≤ 36941 := by
  induction l generalizing c st log with
  | nil =>
    unfold main_pass_aux at h
    cases h
    exact hlog
  | cons v rest ih =>
    unfold main_pass_aux at h
    have hc1 : ∀ p ∈ ((v.order, v) :: c), p.2.order = p.1 := by
      intro p hp
      rcases List.mem_cons.mp hp with rfl | hp'
      · rfl
      · exact hc p hp'
    by_cases hord : v.order > 36940
    · rw [if_pos hord] at h
      exact ih _ _ _ hc1 hlog h
    rw [if_neg hord] at h
    rcases e1 : cache_get ((v.order, v) :: c) (v.order + 1) with _ | v1 <;>
      rcases e2 : cache_get ((v.order, v) :: c) (v.order + 2) with _ | v2 <;>
        rcases e3 : cache_get ((v.order, v) :: c) (v.order + 3) with _ | v3 <;>
          simp only [e1, e2, e3] at h
    all_goals try exact ih _ _ _ hc1 hlog h
    rcases e4 : process_version st ((v.order, v) :: c) v1 v with k | st1 <;>
      rw [e4] at h
    · exact Except.noConfusion h
    · have hv1 : v1.order = v.order + 1 := by
        have hm := cache_get_mem _ _ _ e1
        simpa using hc1 _ hm
      have hlog1 : ∀ o ∈ log ++ [v1.order], o ≤ 36941 := by
        intro o ho
        rcases List.mem_append.mp ho with ho | ho
        · exact hlog o ho
        · rw [List.mem_singleton.mp ho, hv1]
          omega
      exact ih _ _ _ hc1 hlog1 h

/-- C10 counterexample: in the pass over `c10feed`, the version at order
36941 — which exceeds 36940 — IS evaluated: the iteration at the cutoff
order 36940 walks the version one ahead, so the matcher and detector run on
its tasks and the store gains a streak rooted at order 36941. -/
theorem c10_counterexample :
    pass_evaluated (main_pass c10feed []) = [36941] ∧
    (36941 : Nat) > 36940 ∧
    pass_store (main_pass c10feed []) = [c10streak] ∧
    c10streak.failing_versions.map Commit.order = [36941, 36942, 36943] := by
  exact ⟨by decide, by decide, by decide, by decide⟩

/-- C10 (amended): every version of the feed is added to the commit cache,
and the driver never evaluates any version with order greater than 36941 —
the loop body is skipped for orders above 36940, but the body at order `o`
evaluates the version at `o + 1`, so order 36941 can still be evaluated. -/
theorem c10_driver_eval_bound (versions : List Version) (s0 : Store)
    (r : PassResult) (h : main_pass versions s0 = .ok r) :
    (∀ o ∈ r.evaluated, o ≤ 36941) ∧
    (∀ v ∈ versions, (v.order, v) ∈ r.cache) := by
  constructor
  · exact main_pass_aux_eval_bound versions [] s0 [] r
      (fun p hp => absurd hp (List.not_mem_nil p))
      (fun o ho => absurd ho (List.not_mem_nil o)) h
  · exact (main_pass_aux_cache_spec versions [] s0 [] r h).2

/-- C10 witness: the bound applied to the concrete pass over `c10feed`; its
evaluated order 36941 is within the proved bound and the version at the
cutoff order is cached. -/
theorem c10_witness :
    (36941 : Nat) ≤ 36941 ∧ (c10v36940.order, c10v36940) ∈ c10result.cache :=
  ⟨(c10_driver_eval_bound c10feed [] c10result rfl).1 36941 (by decide),
   (c10_driver_eval_bound c10feed [] c10result rfl).2 c10v36940 (by decide)⟩

end FailureStreaks
